import Mathlib

/-!
Verification of the telemetry-relay sidecar (`tools/sidecar.py`).

This file gives a shallow embedding of the sidecar's pure logic:
the bounded replay ring, the SSE attach/replay path, the broadcast
fan-out loop, the newline-delimited-JSON ingestion step, the UDP
metrics datagram handler, the PID-discovery strategy chain, and the
pause/resume signal path.  External effects (sockets, `json.loads`,
`os.kill`, file reads) are passed in as explicit parameters, so every
definition is executable on concrete inputs.
-/

namespace Sidecar

/-- `RING_MAX` (sidecar.py line 16): capacity of the reliable replay ring. -/
def RING_MAX : Nat := 200

/-- Python's `l[-n:]` slice: the last `min n l.length` elements of `l`
(for `n > 0`; the sidecar only uses it with `n = RING_MAX = 200`). -/
def pyLastSlice (n : Nat) (l : List String) : List String :=
  l.drop (l.length - n)

/-- The ring-append step of `tcp_jsonl_client` (sidecar.py lines 153-155):
`RELIABLE_RING.append(packed)` followed by
`if len(RELIABLE_RING) > RING_MAX: del RELIABLE_RING[0:len(RELIABLE_RING)-RING_MAX]`. -/
def recordReliable (ring : List String) (packed : String) : List String :=
  let r := ring ++ [packed]
  if r.length > RING_MAX then r.drop (r.length - RING_MAX) else r

/-- Python `str.strip()` with no argument, on the character list: drop
leading and trailing whitespace. -/
def stripChars (cs : List Char) : List Char :=
  ((cs.dropWhile Char.isWhitespace).reverse.dropWhile Char.isWhitespace).reverse

/-- Python `str.strip()` as used on each decoded upstream line
(sidecar.py line 141). -/
def pyStrip (s : String) : String :=
  ⟨stripChars s.data⟩

/-- A parsed JSON value, as returned by `json.loads`.  Numbers are modelled
as integers (no event handled by the sidecar depends on non-integer
numerics). -/
inductive JValue where
  | jnull : JValue
  | jbool (b : Bool) : JValue
  | jnum (n : Int) : JValue
  | jstr (s : String) : JValue
  | jarr (xs : List JValue) : JValue
  | jobj (fields : List (String × JValue)) : JValue

/-- Python `dict.get(k)`: the value at key `k`, or `None`.  Parsed JSON
objects have unique keys, so first-match lookup is exact. -/
def jGet (fields : List (String × JValue)) (k : String) : Option JValue :=
  match fields with
  | [] => none
  | (k', v) :: rest => if k' = k then some v else jGet rest k

/-- JSON string escaping as done by `json.dumps` (quotes and backslashes;
control characters never occur in the values this development evaluates). -/
def jEscape (s : String) : String :=
  ⟨s.data.foldl (fun acc c =>
    if c = '"' then acc ++ ['\\', '"']
    else if c = '\\' then acc ++ ['\\', '\\']
    else acc ++ [c]) []⟩

/-- `json.dumps(v, separators=(',', ':'))`: compact serialization, field
order preserved (Python dicts preserve insertion order). -/
def dumps : JValue → String
  | .jnull => "null"
  | .jbool b => if b then "true" else "false"
  | .jnum n => toString n
  | .jstr s => "\"" ++ jEscape s ++ "\""
  | .jarr xs =>
      "[" ++ ",".intercalate (xs.attach.map (fun x => dumps x.1)) ++ "]"
  | .jobj fs =>
      "\x7b" ++ ",".intercalate (fs.attach.map
        (fun kv => "\"" ++ jEscape kv.1.1 ++ "\":" ++ dumps kv.1.2)) ++ "\x7d"
decreasing_by
  · simp_wf
    have := List.sizeOf_lt_of_mem x.2
    omega
  · simp_wf
    obtain ⟨⟨k, v⟩, hm⟩ := kv
    have := List.sizeOf_lt_of_mem hm
    simp at this ⊢
    omega

/-- One SSE frame as broadcast by `broadcast_async` (sidecar.py line 120):
an event name and a data payload. -/
structure Frame where
  ev : String
  data : String
deriving DecidableEq

/-- Outcome of processing one upstream line in `tcp_jsonl_client`
(sidecar.py lines 139-160): either the frames broadcast plus the new ring
state, or an uncaught exception that kills the client task (`obj.get` on a
parsed non-object JSON value raises `AttributeError`, which no enclosing
handler catches). -/
inductive LineResult where
  | ok (published : List Frame) (ring : List String) : LineResult
  | crash (ring : List String) : LineResult
deriving DecidableEq

/-- The body of the inner read loop of `tcp_jsonl_client`
(sidecar.py lines 139-160), for one line already decoded to a string.
`parse` stands for `json.loads`, passed in as an oracle; `ring` is
`RELIABLE_RING`. -/
def handleLine (parse : String → Option JValue) (ring : List String)
    (line : String) : LineResult :=
  if pyStrip line = "" then .ok [] ring
  else
    match parse (pyStrip line) with
    | none => .ok [⟨"console", dumps (.jobj [("msg", .jstr (pyStrip line))])⟩] ring
    | some obj =>
      match obj with
      | .jobj fields =>
        match jGet fields "t" with
        | some (.jstr "console") =>
            .ok [⟨"console",
              dumps (.jobj [("msg", (jGet fields "msg").getD (.jstr ""))])⟩] ring
        | some (.jstr "reliable") =>
            .ok [⟨"reliable", dumps (.jobj fields)⟩]
              (recordReliable ring (dumps (.jobj fields)))
        | some (.jstr "metrics") =>
            .ok [⟨"metrics", dumps (.jobj fields)⟩] ring
        | _ => .ok [⟨"console", dumps (.jobj [("msg", .jstr (pyStrip line))])⟩] ring
      | _ => .crash ring

/-- The ring state a line outcome leaves behind. -/
def LineResult.ringOf : LineResult → List String
  | .ok _ r => r
  | .crash r => r

/-- The frames a line outcome broadcast. -/
def LineResult.framesOf : LineResult → List Frame
  | .ok fs _ => fs
  | .crash _ => []

/-- One TCP connection session: process the connection's decoded lines in
order, stopping early only if a line crashes the client task.  Returns the
frames broadcast, the final ring state, and whether the task crashed. -/
def runConn (parse : String → Option JValue) :
    List String → List String → List Frame × List String × Bool
  | ring, [] => ([], ring, false)
  | ring, l :: rest =>
    match handleLine parse ring l with
    | .ok fs ring' =>
        let r := runConn parse ring' rest
        (fs ++ r.1, r.2.1, r.2.2)
    | .crash ring' => ([], ring', true)

/-- The wire text of one SSE frame, as built by `broadcast_async`
(sidecar.py line 120) and by the replay loop of `sse_handler`
(sidecar.py line 103); both produce the same shape. -/
def sseFrameText (ev data : String) : String :=
  "event: " ++ ev ++ "\ndata: " ++ data ++ "\n\n"

/-- The exact strings `sse_handler` writes while priming a new subscriber
(sidecar.py lines 101-103): one `event: reliable` frame per entry of
`RELIABLE_RING[-RING_MAX:]`, and nothing else — in particular no SSE
comment frame and no metrics frame. -/
def sseReplayWrites (ring : List String) : List String :=
  (pyLastSlice RING_MAX ring).map (fun s => sseFrameText "reliable" s)

/-- An SSE comment frame starts with a colon (the priming frame the spec
describes would be such a frame). -/
def isCommentFrame (f : String) : Bool :=
  match f.data with
  | [] => false
  | c :: _ => c = ':'

/-- One atomic step of the event loop, restricted to the actions that decide
what one attaching subscriber receives.  `sse_handler` runs `snap`
(evaluating the slice `RELIABLE_RING[-RING_MAX:]`, line 102) and later
`register` (`SUBS.add(resp)`, line 104); the awaited frame writes between
them are suspension points, so `publish` steps — `tcp_jsonl_client`
recording a reliable event (lines 152-155) and then broadcasting it
(line 156), which reaches only subscribers already in `SUBS` — can be
interleaved anywhere around them. -/
inductive AAct where
  | snap : AAct
  | register : AAct
  | publish (s : String) : AAct

/-- State of the store plus one attaching subscriber. -/
structure AState where
  ring : List String
  captured : Option (List String)
  registered : Bool
  live : List String

def initAState (ring : List String) : AState :=
  ⟨ring, none, false, []⟩

def astep (st : AState) (a : AAct) : AState :=
  match a with
  | .snap => { st with captured := some (pyLastSlice RING_MAX st.ring) }
  | .register => { st with registered := true }
  | .publish s =>
      { st with
        ring := recordReliable st.ring s
        live := if st.registered then st.live ++ [s] else st.live }

def arun (st : AState) (acts : List AAct) : AState :=
  acts.foldl astep st

/-- The reliable payloads the attaching subscriber has been sent: the
replayed snapshot followed by the live frames broadcast to it. -/
def receivedPayloads (st : AState) : List String :=
  st.captured.getD [] ++ st.live

/-- The behaviour of `await s.write(frame)` for one subscriber during one
broadcast: it either completes after some number of scheduler steps, or
raises.  The cost is abstract time; the code imposes no bound on it. -/
inductive WriteRes where
  | ok (cost : Nat) : WriteRes
  | exn (cost : Nat) : WriteRes

/-- One registered subscriber in `SUBS`, with the behaviour its
`resp.write` exhibits for the frame being broadcast. -/
structure BSub where
  id : Nat
  res : WriteRes

/-- Result of one `broadcast_async` call. -/
structure BOut where
  delivered : List Nat
  dead : List Nat
  cost : Nat

/-- `broadcast_async` (sidecar.py lines 114-128): iterate over the
subscriber set, await each subscriber's write in turn (accumulating its
duration), collect the subscribers whose write raised, and prune them
afterwards.  There is no queue and no drop path: a write that merely takes
long is simply awaited. -/
def broadcast_async : List BSub → BOut
  | [] => ⟨[], [], 0⟩
  | s :: rest =>
    let r := broadcast_async rest
    match s.res with
    | .ok c => ⟨s.id :: r.delivered, r.dead, c + r.cost⟩
    | .exn c => ⟨r.delivered, s.id :: r.dead, c + r.cost⟩

/-- The scheduler steps one subscriber's write consumes, whether it
completes or raises. -/
def writeCost (s : BSub) : Nat :=
  match s.res with
  | .ok c => c
  | .exn c => c

/-- Python truthiness of `obj.get('t') == 'metrics'` for a parsed value. -/
def isMetricsTag : Option JValue → Bool
  | some (.jstr s) => s = "metrics"
  | _ => false

/-- `UdpMetrics.datagram_received` (sidecar.py lines 168-176): parse the
datagram; publish a `metrics` frame only when the parse yields a JSON
object whose `t` field equals `"metrics"`; every exception (malformed
JSON, or `obj.get` on a non-object value) is swallowed by the
`except: pass`, dropping the datagram.  Returns the frame broadcast, if
any; no other state is touched. -/
def datagram_received (parse : String → Option JValue) (data : String) :
    Option Frame :=
  match parse data with
  | none => none
  | some (.jobj fields) =>
      if isMetricsTag (jGet fields "t")
      then some ⟨"metrics", dumps (.jobj fields)⟩
      else none
  | some _ => none

/-- Python `int(s)` restricted to what the sidecar feeds it: optional
surrounding whitespace, an optional sign, then decimal digits; anything
else raises, which the callers turn into `None`. -/
def pyIntParse (s : String) : Option Int :=
  let cs := (pyStrip s).data
  match cs with
  | [] => none
  | '-' :: rest =>
      if rest ≠ [] ∧ rest.all Char.isDigit
      then some (-(rest.foldl (fun a c => a * 10 + (c.toNat - 48)) 0 : Nat))
      else none
  | '+' :: rest =>
      if rest ≠ [] ∧ rest.all Char.isDigit
      then some ((rest.foldl (fun a c => a * 10 + (c.toNat - 48)) 0 : Nat))
      else none
  | _ =>
      if cs.all Char.isDigit
      then some ((cs.foldl (fun a c => a * 10 + (c.toNat - 48)) 0 : Nat))
      else none

/-- `_env_pid` (sidecar.py lines 19-23), with the `HORNET_PID` environment
value passed in: an unset or empty value yields `None` (`if not v`), and an
unparseable value yields `None` via the `except` handler. -/
def _env_pid (v : Option String) : Option Int :=
  match v with
  | none => none
  | some s => if s = "" then none else pyIntParse s

/-- Python `a or b` on optional integers: `a` unless `a` is falsy
(`None` or `0`). -/
def pyOrInt (a b : Option Int) : Option Int :=
  match a with
  | none => b
  | some x => if x = 0 then b else some x

/-- The scan loop of `_discover_pid_periodically` (sidecar.py lines 83-92),
observed for finitely many iterations whose combined scan results
(psutil scan, else pgrep scan) are given by `scans`.  `prev` and `hpid`
are the loop variable `prev` and the global `HORNET_PID`; the global is
updated only when a scan yields a non-`None` value different from
`prev`. -/
def scanLoop : List (Option Int) → Option Int → Option Int → Option Int
  | [], _, hpid => hpid
  | r :: rest, prev, hpid =>
    if r ≠ prev ∧ r.isSome
    then scanLoop rest r r
    else scanLoop rest prev hpid

/-- Final `HORNET_PID` plus the number of scan iterations that ran. -/
structure DiscoverOutcome where
  pid : Option Int
  scanRuns : Nat
deriving DecidableEq

/-- `_discover_pid_periodically` (sidecar.py lines 77-92).  `env` is the
`HORNET_PID` environment value; `pidf` is the result of `_pidfile_pid`
(file I/O passed in as its outcome); `scans` are the successive combined
scan results the periodic loop would observe.  `fixed = _env_pid() or
_pidfile_pid()`; if `fixed is not None` the PID is set once and the
function returns without ever scanning; otherwise the loop runs one scan
per iteration. -/
def _discover_pid_periodically (env : Option String) (pidf : Option Int)
    (scans : List (Option Int)) : DiscoverOutcome :=
  match pyOrInt (_env_pid env) pidf with
  | some v => ⟨some v, 0⟩
  | none => ⟨scanLoop scans none none, scans.length⟩

/-- The two signals Process Control sends (sidecar.py lines 204, 208). -/
inductive Sig where
  | sigstop : Sig
  | sigcont : Sig
deriving DecidableEq

/-- Outcome of one `os.kill(pid, sig)` call, passed in as an oracle. -/
inductive KillRes where
  | ok : KillRes
  | noSuchProcess : KillRes
  | permissionDenied : KillRes
  | other (msg : String) : KillRes
deriving DecidableEq

/-- `send_signal` (sidecar.py lines 189-201): with no resolved PID the call
fails immediately (the `kill` oracle is never consulted); otherwise each
`os.kill` exception is mapped to its error string and every outcome is
returned as an `(ok, error)` pair. -/
def send_signal (sig : Sig) (pid : Option Int)
    (kill : Int → Sig → KillRes) : Bool × Option String :=
  match pid with
  | none => (false,
      some "hornet PID not found (set HORNET_PID / HORNET_PIDFILE, or ensure process name contains 'hornetnode')")
  | some p =>
    match kill p sig with
    | .ok => (true, none)
    | .noSuchProcess => (false, some ("process " ++ toString p ++ " not found"))
    | .permissionDenied => (false, some "permission denied sending signal")
    | .other m => (false, some m)

/-- The JSON body `{"ok": ..., "error": ...}` returned by the control
endpoints. -/
structure ApiResp where
  ok : Bool
  error : Option String
deriving DecidableEq

/-- `pause_api` (sidecar.py lines 203-205): send SIGSTOP and return the
outcome verbatim as the response body. -/
def pause_api (pid : Option Int) (kill : Int → Sig → KillRes) : ApiResp :=
  let r := send_signal .sigstop pid kill
  ⟨r.1, r.2⟩

/-- `resume_api` (sidecar.py lines 207-209): send SIGCONT and return the
outcome verbatim as the response body. -/
def resume_api (pid : Option Int) (kill : Int → Sig → KillRes) : ApiResp :=
  let r := send_signal .sigcont pid kill
  ⟨r.1, r.2⟩

/-- A `json.loads` oracle that raises on every input, as the real parser
does on any non-JSON line (e.g. `hello` or a whitespace-only string). -/
def parseNone : String → Option JValue := fun _ => none

/-- A console-tagged upstream line, and below an oracle agreeing with
Python's `json.loads` on it. -/
def consoleHiLine : String := "\x7b\"t\":\"console\",\"msg\":\"hi\"\x7d"

def parseConsoleHi : String → Option JValue :=
  fun s => if s = consoleHiLine
           then some (.jobj [("t", .jstr "console"), ("msg", .jstr "hi")])
           else none

/-- A reliable-tagged upstream line, and an oracle agreeing with
`json.loads` on it. -/
def reliableLine : String := "\x7b\"t\":\"reliable\",\"v\":3\x7d"

def parseReliable : String → Option JValue :=
  fun s => if s = reliableLine
           then some (.jobj [("t", .jstr "reliable"), ("v", .jnum 3)])
           else none

/-- A well-formed JSON object datagram carrying no `t` tag, and an oracle
agreeing with `json.loads` on it. -/
def plainObjText : String := "\x7b\"a\":1\x7d"

def parsePlainObj : String → Option JValue :=
  fun s => if s = plainObjText then some (.jobj [("a", .jnum 1)]) else none

theorem pyLastSlice_eq_rtake (n : Nat) (l : List String) :
    pyLastSlice n l = l.rtake n := rfl

theorem recordReliable_eq_rtake (ring : List String) (s : String) :
    recordReliable ring s = (ring ++ [s]).rtake RING_MAX := by
  show (if (ring ++ [s]).length > RING_MAX
      then (ring ++ [s]).drop ((ring ++ [s]).length - RING_MAX)
      else (ring ++ [s])) = _
  by_cases h : (ring ++ [s]).length > RING_MAX
  · rw [if_pos h]; rfl
  · rw [if_neg h]
    unfold List.rtake
    rw [Nat.sub_eq_zero_of_le (by omega), List.drop_zero]

/-- `take n (a ++ take n b) = take n (a ++ b)`: the reversed form of the
ring-clamp absorption law. -/
theorem take_append_take (n : Nat) (a b : List String) :
    (a ++ b.take n).take n = (a ++ b).take n := by
  rw [List.take_append_eq_append_take, List.take_append_eq_append_take,
    List.take_take, Nat.min_eq_left (Nat.sub_le n a.length)]

theorem rtake_length_le (n : Nat) (l : List String) : (l.rtake n).length ≤ n := by
  simp [List.rtake, List.length_drop]
  omega

theorem rtake_eq_self_of_le {n : Nat} {l : List String} (h : l.length ≤ n) :
    l.rtake n = l := by
  simp [List.rtake, Nat.sub_eq_zero_of_le h]

/-- Clamping an already-clamped ring after appending more entries is the same
as clamping once at the end. -/
theorem rtake_append_rtake (n : Nat) (a b : List String) :
    (a.rtake n ++ b).rtake n = (a ++ b).rtake n := by
  rw [List.rtake_eq_reverse_take_reverse, List.rtake_eq_reverse_take_reverse,
    List.rtake_eq_reverse_take_reverse]
  rw [List.reverse_append, List.reverse_reverse, List.reverse_append]
  rw [take_append_take]

/-- Every record call leaves the ring within capacity (the clamp at
sidecar.py lines 154-155 always restores the bound). -/
theorem recordReliable_length_le (ring : List String) (s : String) :
    (recordReliable ring s).length ≤ RING_MAX := by
  rw [recordReliable_eq_rtake]; exact rtake_length_le _ _

/-- A burst of record calls is the clamp of the concatenation, provided the
starting ring is within capacity (true of every reachable ring state:
the ring starts empty and `recordReliable_length_le` preserves the bound). -/
theorem foldl_recordReliable (xs : List String) :
    ∀ ring : List String, ring.length ≤ RING_MAX →
      xs.foldl recordReliable ring = (ring ++ xs).rtake RING_MAX := by
  induction xs with
  | nil => intro ring h; simp [rtake_eq_self_of_le h]
  | cons x xs ih =>
    intro ring h
    rw [List.foldl_cons, ih _ (recordReliable_length_le ring x),
      recordReliable_eq_rtake, rtake_append_rtake]
    simp

theorem rtake_append_right {n : Nat} (a b : List String) (h : n ≤ b.length) :
    (a ++ b).rtake n = b.rtake n := by
  rw [List.rtake_eq_reverse_take_reverse, List.rtake_eq_reverse_take_reverse,
    List.reverse_append, List.take_append_of_le_length (by simpa using h)]

/-- C7: if an explicit PID override (or a pidfile value) is found at
discovery start, the resolved PID equals that value, the scan strategies
are skipped, and the periodic re-scan never runs; in particular with an
override of 4321 and a table-scan result of 9999 available, the resolved
PID is 4321 and zero scan iterations run. -/
theorem C7_thm :
    (∀ (env : Option String) (pidf : Option Int) (scans : List (Option Int))
        (v : Int), pyOrInt (_env_pid env) pidf = some v →
      _discover_pid_periodically env pidf scans = ⟨some v, 0⟩) ∧
    (∀ (pidf : Option Int) (scans : List (Option Int)),
      _discover_pid_periodically (some "4321") pidf scans = ⟨some 4321, 0⟩) ∧
    (∀ (p : Int) (scans : List (Option Int)),
      _discover_pid_periodically none (some p) scans = ⟨some p, 0⟩) := by
  refine ⟨?_, ?_, ?_⟩
  · intro env pidf scans v h
    unfold _discover_pid_periodically
    rw [h]
  · intro pidf scans
    have h1 : _env_pid (some "4321") = some 4321 := by rfl
    have h2 : pyOrInt (_env_pid (some "4321")) pidf = some 4321 := by
      rw [h1]; simp [pyOrInt]
    unfold _discover_pid_periodically
    rw [h2]
  · intro p scans
    unfold _discover_pid_periodically
    rfl

theorem C7_witness :
    _discover_pid_periodically (some "4321") none [some 9999]
      = ⟨some 4321, 0⟩ :=
  C7_thm.1 (some "4321") none [some 9999] 4321 (by rfl)

/-- C10: an explicit PID override that is unset, empty, `0`, or not
parseable as an integer is treated as absent: discovery behaves exactly as
with no override, falling through to the pidfile value if present and
otherwise to the scan loop, and no error is raised (the model is total). -/
theorem C10_thm :
    _env_pid none = none ∧ _env_pid (some "") = none ∧
    _env_pid (some "abc") = none ∧ _env_pid (some "0") = some 0 ∧
    (∀ (pidf : Option Int) (scans : List (Option Int)),
      _discover_pid_periodically (some "") pidf scans
        = _discover_pid_periodically none pidf scans ∧
      _discover_pid_periodically (some "0") pidf scans
        = _discover_pid_periodically none pidf scans ∧
      _discover_pid_periodically (some "abc") pidf scans
        = _discover_pid_periodically none pidf scans) ∧
    (∀ (p : Int) (scans : List (Option Int)),
      _discover_pid_periodically none (some p) scans = ⟨some p, 0⟩) ∧
    (∀ scans : List (Option Int),
      _discover_pid_periodically none none scans
        = ⟨scanLoop scans none none, scans.length⟩) := by
  refine ⟨rfl, rfl, rfl, rfl, ?_, ?_, ?_⟩
  · intro pidf scans
    have h0 : _env_pid (some "0") = some 0 := rfl
    have he : _env_pid (some "") = none := rfl
    have ha : _env_pid (some "abc") = none := rfl
    have hn : _env_pid none = none := rfl
    unfold _discover_pid_periodically
    rw [h0, he, ha, hn]
    refine ⟨rfl, ?_, rfl⟩
    have : pyOrInt (some 0) pidf = pyOrInt none pidf := by simp [pyOrInt]
    rw [this]
  · intro p scans; rfl
  · intro scans; rfl

/-- C8: `pause`/`resume` with no resolved PID fail with the no-target
condition and never consult the kill oracle (the result is the same for
every oracle); a `ProcessLookupError` maps to the target-not-found error; a
`PermissionError` maps to the permission-denied error; and both endpoints
return the outcome verbatim as the structured `{ok, error}` response. -/
theorem C8_thm :
    (∀ (sig : Sig) (kill kill' : Int → Sig → KillRes),
      send_signal sig none kill
        = (false, some "hornet PID not found (set HORNET_PID / HORNET_PIDFILE, or ensure process name contains 'hornetnode')") ∧
      send_signal sig none kill = send_signal sig none kill') ∧
    (∀ (sig : Sig) (p : Int) (kill : Int → Sig → KillRes),
      (kill p sig = .noSuchProcess →
        send_signal sig (some p) kill
          = (false, some ("process " ++ toString p ++ " not found"))) ∧
      (kill p sig = .permissionDenied →
        send_signal sig (some p) kill
          = (false, some "permission denied sending signal")) ∧
      (kill p sig = .ok → send_signal sig (some p) kill = (true, none))) ∧
    (∀ (pid : Option Int) (kill : Int → Sig → KillRes),
      pause_api pid kill
        = ⟨(send_signal .sigstop pid kill).1, (send_signal .sigstop pid kill).2⟩ ∧
      resume_api pid kill
        = ⟨(send_signal .sigcont pid kill).1, (send_signal .sigcont pid kill).2⟩) := by
  refine ⟨?_, ?_, ?_⟩
  · intro sig kill kill'
    exact ⟨rfl, rfl⟩
  · intro sig p kill
    refine ⟨?_, ?_, ?_⟩ <;> intro h <;> simp [send_signal, h]
  · intro pid kill
    exact ⟨rfl, rfl⟩

theorem C8_witness :
    send_signal .sigstop (some 42) (fun _ _ => .noSuchProcess)
      = (false, some "process 42 not found") :=
  (C8_thm.2.1 .sigstop 42 (fun _ _ => .noSuchProcess)).1 rfl

/-- A line whose handling always returns the same frames and leaves the
ring unchanged keeps the ring unchanged over any number of repetitions. -/
theorem runConn_ring_of_inert (parse : String → Option JValue) (l : String)
    (fs : List Frame) (h : ∀ ring, handleLine parse ring l = .ok fs ring) :
    ∀ (n : Nat) (ring : List String),
      (runConn parse ring (List.replicate n l)).2.1 = ring := by
  intro n
  induction n with
  | zero => intro ring; rfl
  | succ n ih =>
    intro ring
    show (runConn parse ring (l :: List.replicate n l)).2.1 = ring
    simp only [runConn, h ring]
    exact ih ring

/-- C2 (amended): the ring length never exceeds `RING_MAX` after any record
call, and a burst of at least `RING_MAX` *reliable* records leaves the ring
holding exactly the last `RING_MAX` of them in arrival order. -/
theorem C2_amended_thm :
    (∀ (ring : List String) (s : String),
      (recordReliable ring s).length ≤ RING_MAX) ∧
    (∀ (ring burst : List String), ring.length ≤ RING_MAX →
      RING_MAX ≤ burst.length →
      burst.foldl recordReliable ring
        = burst.drop (burst.length - RING_MAX)) := by
  constructor
  · exact recordReliable_length_le
  · intro ring burst h1 h2
    rw [foldl_recordReliable burst ring h1, rtake_append_right _ _ h2]
    rfl

theorem C2_witness :
    (List.replicate 200 "x").foldl recordReliable []
      = (List.replicate 200 "x").drop
          ((List.replicate 200 "x").length - RING_MAX) :=
  C2_amended_thm.2 [] (List.replicate 200 "x") (by simp)
    (by rw [List.length_replicate]; exact Nat.le_refl 200)

/-- C2 (counterexample): the claim also covers bursts of *console* records,
but console events are never recorded: a burst of `RING_MAX` console
records leaves the buffer empty instead of holding the last `RING_MAX`
serialized frames of the burst. -/
theorem C2_counterexample :
    (runConn parseConsoleHi []
        (List.replicate RING_MAX consoleHiLine)).2.1 = []
    ∧ RING_MAX ≤ (List.replicate RING_MAX consoleHiLine).length
    ∧ List.replicate RING_MAX
        (dumps (.jobj [("t", .jstr "console"), ("msg", .jstr "hi")])) ≠ [] := by
  refine ⟨?_, by rw [List.length_replicate], fun h => by
    rw [List.eq_nil_iff_forall_not_mem] at h
    exact h _ (List.mem_replicate.mpr ⟨by simp [RING_MAX], rfl⟩)⟩
  exact runConn_ring_of_inert parseConsoleHi consoleHiLine
    [⟨"console", dumps (.jobj [("msg", .jstr "hi")])⟩]
    (fun ring => rfl) RING_MAX []

/-- C5 (amended): an ingested event whose tag is `reliable` has its
serialized frame appended to the bounded buffer; an event whose tag is
`console` is broadcast but leaves the buffer unchanged. -/
theorem C5_amended_thm :
    ∀ (parse : String → Option JValue) (ring : List String) (line : String)
      (fields : List (String × JValue)),
      pyStrip line ≠ "" → parse (pyStrip line) = some (.jobj fields) →
      (jGet fields "t" = some (.jstr "reliable") →
        handleLine parse ring line
          = .ok [⟨"reliable", dumps (.jobj fields)⟩]
              (recordReliable ring (dumps (.jobj fields)))) ∧
      (jGet fields "t" = some (.jstr "console") →
        handleLine parse ring line
          = .ok [⟨"console",
                  dumps (.jobj [("msg", (jGet fields "msg").getD (.jstr ""))])⟩]
              ring) := by
  intro parse ring line fields h1 h2
  constructor <;> intro h3 <;> simp [handleLine, h1, h2, h3]

theorem C5_witness :
    handleLine parseReliable ["old"] reliableLine
      = .ok [⟨"reliable",
              dumps (.jobj [("t", .jstr "reliable"), ("v", .jnum 3)])⟩]
          (recordReliable ["old"]
            (dumps (.jobj [("t", .jstr "reliable"), ("v", .jnum 3)]))) :=
  (C5_amended_thm parseReliable ["old"] reliableLine
    [("t", .jstr "reliable"), ("v", .jnum 3)] (by decide) rfl).1 rfl

/-- C5 (counterexample): a console event is *not* recorded — processing a
console-tagged line over an empty ring broadcasts a console frame but
leaves the ring empty, where the claim requires a serialized frame to be
appended for events of kind Console as well. -/
theorem C5_counterexample :
    handleLine parseConsoleHi [] consoleHiLine
      = .ok [⟨"console", dumps (.jobj [("msg", .jstr "hi")])⟩] []
    ∧ (handleLine parseConsoleHi [] consoleHiLine).ringOf.length = 0 :=
  ⟨rfl, rfl⟩

/-- C6 (amended): a *non-blank* upstream line that is not parseable as JSON,
and a parsed JSON object whose type tag is unrecognized, each yield exactly
one Console event whose message is the line text stripped of surrounding
whitespace, and processing continues (the outcome is `ok`, never a crash);
a blank (whitespace-only) line is skipped without producing any event. -/
theorem C6_amended_thm :
    ∀ (parse : String → Option JValue) (ring : List String) (line : String),
      (pyStrip line = "" → handleLine parse ring line = .ok [] ring) ∧
      (pyStrip line ≠ "" → parse (pyStrip line) = none →
        handleLine parse ring line
          = .ok [⟨"console", dumps (.jobj [("msg", .jstr (pyStrip line))])⟩]
              ring) ∧
      (∀ fields, pyStrip line ≠ "" →
        parse (pyStrip line) = some (.jobj fields) →
        jGet fields "t" ≠ some (.jstr "console") →
        jGet fields "t" ≠ some (.jstr "reliable") →
        jGet fields "t" ≠ some (.jstr "metrics") →
        handleLine parse ring line
          = .ok [⟨"console", dumps (.jobj [("msg", .jstr (pyStrip line))])⟩]
              ring) := by
  intro parse ring line
  refine ⟨?_, ?_, ?_⟩
  · intro h1; simp [handleLine, h1]
  · intro h1 h2; simp [handleLine, h1, h2]
  · intro fields h1 h2 h3 h4 h5
    cases ho : jGet fields "t" with
    | none => simp [handleLine, h1, h2, ho]
    | some v =>
      cases v with
      | jstr s =>
        by_cases hc : s = "console"
        · exact absurd (by rw [ho, hc]) h3
        · by_cases hr : s = "reliable"
          · exact absurd (by rw [ho, hr]) h4
          · by_cases hm : s = "metrics"
            · exact absurd (by rw [ho, hm]) h5
            · simp [handleLine, h1, h2, ho, hc, hr, hm]
      | jnull => simp [handleLine, h1, h2, ho]
      | jbool b => simp [handleLine, h1, h2, ho]
      | jnum n => simp [handleLine, h1, h2, ho]
      | jarr xs => simp [handleLine, h1, h2, ho]
      | jobj gs => simp [handleLine, h1, h2, ho]

theorem C6_witness :
    handleLine parseNone ["keep"] "not json"
      = .ok [⟨"console", dumps (.jobj [("msg", .jstr "not json")])⟩]
          ["keep"] :=
  (C6_amended_thm parseNone ["keep"] "not json").2.1 (by decide) rfl

/-- C6 (counterexample): a whitespace-only line is not parseable as JSON
(`json.loads` would raise on it), yet the code skips it before parsing
(sidecar.py line 142) and publishes no Console event at all — the claim
that every unparseable line yields a Console event is false. -/
theorem C6_counterexample :
    handleLine parseNone ["keep"] "   " = .ok [] ["keep"]
    ∧ (handleLine parseNone ["keep"] "   ").framesOf.length = 0 :=
  ⟨rfl, rfl⟩

/-- Truthiness of the tag test in `datagram_received`. -/
theorem isMetricsTag_eq_true_iff (o : Option JValue) :
    isMetricsTag o = true ↔ o = some (.jstr "metrics") := by
  cases o with
  | none => simp [isMetricsTag]
  | some v =>
    cases v with
    | jstr s => simp [isMetricsTag]
    | jnull => simp [isMetricsTag]
    | jbool b => simp [isMetricsTag]
    | jnum n => simp [isMetricsTag]
    | jarr xs => simp [isMetricsTag]
    | jobj fs => simp [isMetricsTag]

/-- C9 (amended): a datagram that parses as a JSON object whose `t` tag is
`"metrics"` is published as a Metrics event; every other datagram —
malformed, a non-object JSON value, or an object without the metrics tag —
is dropped with no frame published and no other effect, and the listener
continues (the handler is total). -/
theorem C9_amended_thm :
    ∀ (parse : String → Option JValue) (data : String),
      (parse data = none → datagram_received parse data = none) ∧
      (∀ fields, parse data = some (.jobj fields) →
        jGet fields "t" = some (.jstr "metrics") →
        datagram_received parse data
          = some ⟨"metrics", dumps (.jobj fields)⟩) ∧
      (∀ fields, parse data = some (.jobj fields) →
        jGet fields "t" ≠ some (.jstr "metrics") →
        datagram_received parse data = none) ∧
      (∀ n, parse data = some (.jnum n) →
        datagram_received parse data = none) := by
  intro parse data
  refine ⟨?_, ?_, ?_, ?_⟩
  · intro h; simp [datagram_received, h]
  · intro fields h1 h2
    have : isMetricsTag (jGet fields "t") = true :=
      (isMetricsTag_eq_true_iff _).mpr h2
    simp [datagram_received, h1, this]
  · intro fields h1 h2
    have : isMetricsTag (jGet fields "t") = false := by
      rcases Bool.eq_false_or_eq_true (isMetricsTag (jGet fields "t")) with h | h
      · exact absurd ((isMetricsTag_eq_true_iff _).mp h) h2
      · exact h
    simp [datagram_received, h1, this]
  · intro n h; simp [datagram_received, h]

theorem C9_witness :
    datagram_received parseNone "garbage" = none :=
  (C9_amended_thm parseNone "garbage").1 rfl

/-- C9 (counterexample): the datagram `{"a":1}` parses as one well-formed
JSON object, so the claim requires it to be published as a Metrics event,
but `datagram_received` publishes nothing because its `t` tag is not
`"metrics"` (sidecar.py line 172). -/
theorem C9_counterexample :
    datagram_received parsePlainObj plainObjText = none := rfl

/-- Every frame a single line's handling publishes is a console, reliable
or metrics frame. -/
theorem handleLine_ev (parse : String → Option JValue) (ring : List String)
    (line : String) :
    ∀ f ∈ (handleLine parse ring line).framesOf,
      f.ev = "console" ∨ f.ev = "reliable" ∨ f.ev = "metrics" := by
  intro f hf
  unfold handleLine at hf
  repeat' split at hf
  all_goals simp [LineResult.framesOf] at hf
  all_goals rw [hf]
  · exact Or.inl rfl
  · exact Or.inl rfl
  · exact Or.inr (Or.inl rfl)
  · exact Or.inr (Or.inr rfl)
  · exact Or.inl rfl

/-- C4 (amended): the stream ingestion client publishes no `Clear` event —
on connection open it publishes nothing at all (the first thing written is
the outcome of the first non-blank line), and every frame produced from a
connection's lines, on the first connection and on every reconnect alike,
is a console, reliable or metrics frame. -/
theorem C4_amended_thm :
    ∀ (parse : String → Option JValue) (lines ring : List String)
      (f : Frame), f ∈ (runConn parse ring lines).1 →
      (f.ev = "console" ∨ f.ev = "reliable" ∨ f.ev = "metrics")
      ∧ f.ev ≠ "clear" := by
  intro parse lines
  induction lines with
  | nil => intro ring f hf; simp [runConn] at hf
  | cons l rest ih =>
    intro ring f hf
    have hev : f.ev = "console" ∨ f.ev = "reliable" ∨ f.ev = "metrics" := by
      simp only [runConn] at hf
      cases hh : handleLine parse ring l with
      | ok fs ring' =>
        rw [hh] at hf
        simp at hf
        rcases hf with hf | hf
        · exact handleLine_ev parse ring l f (by rw [hh]; exact hf)
        · exact (ih ring' f hf).1
      | crash ring' => rw [hh] at hf; simp at hf
    refine ⟨hev, ?_⟩
    rcases hev with h | h | h <;> rw [h] <;> decide

theorem C4_witness :
    ((⟨"console", dumps (.jobj [("msg", .jstr "hello")])⟩ : Frame).ev
        = "console"
      ∨ (⟨"console", dumps (.jobj [("msg", .jstr "hello")])⟩ : Frame).ev
        = "reliable"
      ∨ (⟨"console", dumps (.jobj [("msg", .jstr "hello")])⟩ : Frame).ev
        = "metrics")
    ∧ (⟨"console", dumps (.jobj [("msg", .jstr "hello")])⟩ : Frame).ev
        ≠ "clear" :=
  C4_amended_thm parseNone ["hello"] []
    ⟨"console", dumps (.jobj [("msg", .jstr "hello")])⟩ (by
      have h : (runConn parseNone [] ["hello"]).1
          = [⟨"console", dumps (.jobj [("msg", .jstr "hello")])⟩] := rfl
      rw [h]
      exact List.mem_singleton.mpr rfl)

/-- C4 (counterexample): a fresh connection whose first line is `hello`
publishes a console data event as its very first frame — no `Clear` event
precedes it (the code never publishes any `clear` frame), so the claim
that every connection opening publishes a Clear before data is false. -/
theorem C4_counterexample :
    (runConn parseNone [] ["hello"]).1.map Frame.ev = ["console"] := rfl

/-- C3 (amended): `broadcast_async` awaits each registered subscriber's
write in sequence, so one publish costs the sum of every subscriber's write
duration — it is not bounded independently of a slow subscriber's
consumption rate; every subscriber whose write completes receives the frame
(nothing is ever dropped for a slow-but-live subscriber), and a subscriber
whose write raises is collected into the pruned set. -/
theorem C3_amended_thm :
    (∀ subs : List BSub,
      (broadcast_async subs).cost = (subs.map writeCost).sum) ∧
    (∀ (subs : List BSub) (s : BSub), s ∈ subs →
      (∀ c, s.res = .ok c →
        s.id ∈ (broadcast_async subs).delivered
        ∧ c ≤ (broadcast_async subs).cost)
      ∧ (∀ c, s.res = .exn c →
        s.id ∈ (broadcast_async subs).dead
        ∧ c ≤ (broadcast_async subs).cost)) := by
  constructor
  · intro subs
    induction subs with
    | nil => rfl
    | cons x rest ih =>
      cases hx : x.res <;> simp [broadcast_async, hx, ih, writeCost]
  · intro subs
    induction subs with
    | nil => intro s hs; simp at hs
    | cons x rest ih =>
      intro s hs
      rcases List.mem_cons.mp hs with rfl | hs'
      · constructor
        · intro c hc
          refine ⟨?_, ?_⟩ <;> simp [broadcast_async, hc]
        · intro c hc
          refine ⟨?_, ?_⟩ <;> simp [broadcast_async, hc]
      · have ihs := ih s hs'
        constructor
        · intro c hc
          obtain ⟨hmem, hle⟩ := ihs.1 c hc
          cases hx : x.res with
          | ok cx =>
            exact ⟨by simp [broadcast_async, hx, hmem],
              by simp [broadcast_async, hx]; omega⟩
          | exn cx =>
            exact ⟨by simp [broadcast_async, hx, hmem],
              by simp [broadcast_async, hx]; omega⟩
        · intro c hc
          obtain ⟨hmem, hle⟩ := ihs.2 c hc
          cases hx : x.res with
          | ok cx =>
            exact ⟨by simp [broadcast_async, hx, hmem],
              by simp [broadcast_async, hx]; omega⟩
          | exn cx =>
            exact ⟨by simp [broadcast_async, hx, hmem],
              by simp [broadcast_async, hx]; omega⟩

theorem C3_witness :
    0 ∈ (broadcast_async [⟨0, .ok 5⟩]).delivered
    ∧ 5 ≤ (broadcast_async [⟨0, .ok 5⟩]).cost :=
  (C3_amended_thm.2 [⟨0, .ok 5⟩] ⟨0, .ok 5⟩ (List.mem_singleton.mpr rfl)).1
    5 rfl

/-- C3 (counterexample): one publish to a slow subscriber (write cost 1000)
takes 1000 steps against 0 steps when the same subscriber is fast, so
publish time is *not* bounded independently of a single subscriber's
consumption rate; and the slow subscriber still receives the frame — it is
not dropped — while the other subscriber is unaffected. -/
theorem C3_counterexample :
    (broadcast_async [⟨0, .ok 1000⟩, ⟨1, .ok 0⟩]).cost = 1000
    ∧ (broadcast_async [⟨0, .ok 0⟩, ⟨1, .ok 0⟩]).cost = 0
    ∧ (broadcast_async [⟨0, .ok 1000⟩, ⟨1, .ok 0⟩]).delivered = [0, 1]
    ∧ (broadcast_async [⟨0, .ok 1000⟩, ⟨1, .ok 0⟩]).dead = [] :=
  ⟨rfl, rfl, rfl, rfl⟩

theorem arun_append (st : AState) (a b : List AAct) :
    arun st (a ++ b) = arun (arun st a) b :=
  List.foldl_append _ _ _ _

theorem arun_single (st : AState) (a : AAct) : arun st [a] = astep st a := rfl

/-- A block of publish steps folds the records into the ring, leaves the
snapshot and registration flag alone, and extends the subscriber's live
feed exactly when it is already registered. -/
theorem arun_pubs (ps : List String) : ∀ st : AState,
    arun st (ps.map AAct.publish)
      = ⟨ps.foldl recordReliable st.ring, st.captured, st.registered,
         st.live ++ (if st.registered then ps else [])⟩ := by
  induction ps with
  | nil =>
    intro st
    cases st with
    | mk r c g lv => cases g <;> simp [arun]
  | cons p ps ih =>
    intro st
    cases st with
    | mk r c g lv =>
      have h1 : arun ⟨r, c, g, lv⟩ ((p :: ps).map AAct.publish)
          = arun (astep ⟨r, c, g, lv⟩ (.publish p)) (ps.map AAct.publish) :=
        rfl
      rw [h1, ih]
      cases g <;> simp [astep]

/-- C1 (amended): a subscriber attaching while the ring holds `ring0` after
the publishes `ps1`, with `ps2` published between the ring snapshot and
registration and `ps3` published afterwards, receives exactly one copy of
each snapshot entry followed by exactly the post-registration publishes in
order — no duplicates, but the seam publishes `ps2` are delivered to
neither replay nor live, and no priming comment frame and no metrics slot
exist. -/
theorem C1_amended_thm (ring0 ps1 ps2 ps3 : List String)
    (h : ring0.length ≤ RING_MAX) :
    receivedPayloads (arun (initAState ring0)
      (ps1.map AAct.publish ++ [AAct.snap] ++ ps2.map AAct.publish
        ++ [AAct.register] ++ ps3.map AAct.publish))
      = (ring0 ++ ps1).rtake RING_MAX ++ ps3 := by
  rw [arun_append, arun_append, arun_append, arun_append]
  rw [arun_pubs, arun_single, arun_pubs, arun_single, arun_pubs]
  simp only [initAState, astep, receivedPayloads, if_neg Bool.false_ne_true,
    Bool.false_eq_true, if_false, if_true, List.append_nil, List.nil_append,
    Option.getD_some]
  rw [pyLastSlice_eq_rtake, foldl_recordReliable ps1 ring0 h,
    rtake_eq_self_of_le (rtake_length_le _ _)]

theorem C1_witness :
    receivedPayloads (arun (initAState ["a"])
      (["b"].map AAct.publish ++ [AAct.snap] ++ ["c"].map AAct.publish
        ++ [AAct.register] ++ ["d"].map AAct.publish))
      = (["a"] ++ ["b"]).rtake RING_MAX ++ ["d"] :=
  C1_amended_thm ["a"] ["b"] ["c"] ["d"] (by decide)

/-- C1 (counterexample): with the store holding `[e1, e2]`, the interleaving
snapshot → publish `e3` → register (all three inside the serialized
store-mutation sequence: the replay writes between the slice at line 102
and `SUBS.add` at line 104 of sidecar.py are await points) delivers only
`[e1, e2]` to the subscriber although the store then holds `e3` — a gap at
the seam; and the attach writes no priming comment frame: an empty store
writes nothing at all, and a nonempty store's first write is an
`event: reliable` data frame, not a comment. -/
theorem C1_counterexample :
    receivedPayloads (arun (initAState ["e1", "e2"])
        [AAct.snap, AAct.publish "e3", AAct.register]) = ["e1", "e2"]
    ∧ (arun (initAState ["e1", "e2"])
        [AAct.snap, AAct.publish "e3", AAct.register]).ring
      = ["e1", "e2", "e3"]
    ∧ sseReplayWrites [] = []
    ∧ (sseReplayWrites ["x"]).map isCommentFrame = [false] :=
  ⟨rfl, rfl, rfl, rfl⟩

end Sidecar
